import Mathlib

/-!
Verification development for the Quanergy M8 LiDAR client
(src/include/m8_client.h, src/src/m8_client.cpp).

The C++ code is shallowly embedded below:
machine integers become Nat (with explicit reduction modulo 2^32 where
uint32_t arithmetic can wrap), C++ doubles become Rat (the claims under
study are about exact formula structure and comparisons of values produced
by a common strictly monotone formula, not about rounding), floating-point
NaN is modelled by Option Rat with none playing the role of NaN, and the
effectful parts (queue, sweep assembly, delivery through the signal) become
explicit state passing with the delivered sweeps accumulated in a trace.
The trigonometric lookup tables are parameters (functions from the index to
Rat); the index arithmetic feeding them is modelled exactly.
-/

namespace M8

/-- Number of discrete encoder positions per rotation (m8_client.h line 60). -/
def M8_NUM_ROT_ANGLES : ℕ := 10400

/-- Number of firings in one TCP packet (m8_client.h line 62). -/
def M8_FIRING_PER_PKT : ℕ := 50

/-- Size in bytes of one TCP packet (m8_client.h line 64). -/
def M8_PACKET_BYTES : ℕ := 6612

/-- Number of lasers of the sensor (m8_client.h line 68). -/
def M8_NUM_LASERS : ℕ := 8

/-- Modulus of C++ uint32_t arithmetic. -/
def UINT32_MOD : ℕ := 4294967296

/-- Embedding of struct M8FiringData (m8_client.h lines 75-82).
The position field is an unsigned short read from the wire, so any value
0..65535 can occur; returns_distances is 3 return channels of 8 uint32
distances, returns_intensities 3 channels of 8 bytes. -/
structure M8FiringData where
  position : ℕ
  returns_distances : List (List ℕ)
  returns_intensities : List (List ℕ)
  returns_status : List ℕ
deriving DecidableEq, Repr

/-- Firing record with all fields zero, used as the getD default. -/
def defaultFiring : M8FiringData :=
  { position := 0
    returns_distances := List.replicate 3 (List.replicate 8 0)
    returns_intensities := List.replicate 3 (List.replicate 8 0)
    returns_status := List.replicate 8 0 }

/-- Embedding of struct M8DataPacket (m8_client.h lines 85-91):
50 firing records plus seconds/nanoseconds/status trailer. -/
structure M8DataPacket where
  data : List M8FiringData
  seconds : ℕ
  nanoseconds : ℕ
  status : ℕ
deriving DecidableEq, Repr

/-- Firing record number i of a packet (data_packet->data[i]). -/
def packetFiring (pkt : M8DataPacket) (i : ℕ) : M8FiringData :=
  pkt.data.getD i defaultFiring

/-- Observable state of the bounded packet queue together with the
dropped-packet counter of the client: depth is the number of enqueued
buffers, drops the value of dropped_packets_.  Buffer contents are not part
of this state because M8Client::enqueueM8Packet inspects only the byte
count of an arriving buffer. -/
structure QueueState where
  depth : ℕ
  drops : ℕ
deriving DecidableEq, Repr

/-- Embedding of M8Client::enqueueM8Packet (m8_client.cpp lines 73-93).
A buffer is considered only when bytes_received equals M8_PACKET_BYTES; a
wrong-sized buffer falls through the outer if and the state is untouched.
A correctly sized buffer is dropped (dropped_packets_ incremented) when the
queue already holds more than 1000 entries, and enqueued otherwise.  The
power-of-two log throttling touches no state and is not modelled. -/
def enqueueM8Packet (bytes : ℕ) (q : QueueState) : QueueState :=
  if bytes = M8_PACKET_BYTES then
    if q.depth > 1000 then
      { q with drops := q.drops + 1 }
    else
      { q with depth := q.depth + 1 }
  else
    q

/-- Sequence of n pushes of valid-size (6612-byte) buffers with no
intervening pops, starting from q. -/
def pushValid : ℕ → QueueState → QueueState
  | 0, q => q
  | n + 1, q => enqueueM8Packet M8_PACKET_BYTES (pushValid n q)

/-- Embedding of one pcl::PointXYZI output point.  The x, y, z floats may
be NaN, modelled as none. -/
structure Point where
  x : Option ℚ
  y : Option ℚ
  z : Option ℚ
  intensity : ℕ
deriving DecidableEq, Repr, Inhabited

/-- Test mirroring std::isnan on the embedded value. -/
def rangeIsNaN (r : Option ℚ) : Bool :=
  r.isNone

/-- Embedding of M8Client::computeXYZ (m8_client.cpp lines 275-295),
returning the (x, y, z) triple written into the point.  A NaN range yields
all-NaN coordinates; otherwise the exact source formula is applied,
including the literal - sin_vt_angle and + cos_vt_angle offset terms. -/
def computeXYZ (range : Option ℚ) (cos_hz_angle sin_hz_angle cos_vt_angle sin_vt_angle : ℚ) :
    Option ℚ × Option ℚ × Option ℚ :=
  match range with
  | none => (none, none, none)
  | some r =>
    let xy_distance := r * cos_vt_angle - sin_vt_angle
    (some (xy_distance * cos_hz_angle), some (xy_distance * sin_hz_angle),
      some (r * sin_vt_angle + cos_vt_angle))

/-- Embedding of a pcl::PointCloud of PointXYZI as used by the client:
the point sequence plus the fields the client reads or writes (width,
height, is_dense, header.stamp, header.seq).  A freshly constructed pcl
cloud has width 0, height 1, is_dense true and a zero header. -/
structure PointCloud where
  points : List Point
  width : ℕ
  height : ℕ
  is_dense : Bool
  stamp : ℕ
  seq : ℕ
deriving DecidableEq, Repr

/-- State of a newly constructed pcl::PointCloud. -/
def freshCloud : PointCloud :=
  { points := [], width := 0, height := 1, is_dense := true, stamp := 0, seq := 0 }

/-- Embedding of pcl push_back on the cloud: appends the point and
maintains the unorganized dimensions width = size, height = 1. -/
def pushPoint (c : PointCloud) (p : Point) : PointCloud :=
  { c with points := c.points ++ [p], width := c.points.length + 1, height := 1 }

/-- Reordering performed by M8Client::organizeCloud (m8_client.cpp lines
133-164) on the point sequence: with width = size / 8, the outer loop runs
over laser index i from 7 down to 0, the inner loop over firing index j in
collect order, pushing the input element at index j * 8 + i (the source
computes temp_index = j * M8_NUM_LASERS and, since M8_NUM_LASERS == 8, adds
i). -/
def organizeList {α : Type} [Inhabited α] (xs : List α) : List α :=
  ((List.range 8).reverse).flatMap fun i =>
    (List.range (xs.length / 8)).map fun j => xs.getD (j * 8 + i) default

/-- Embedding of M8Client::organizeCloud on the whole cloud object: the
reordered points are collected in a brand new cloud (temp_xyzi) which is
then swapped in, so the result carries the defaults of a fresh pcl cloud
(is_dense true, zero header) with height and width then set to 8 and
size / 8. -/
def organizeCloud (c : PointCloud) : PointCloud :=
  { points := organizeList c.points
    width := c.points.length / 8
    height := 8
    is_dense := true
    stamp := 0
    seq := 0 }

/-- Spin test of M8Client::toPointClouds (m8_client.cpp line 187): the
sensor counts as spinning unless the absolute difference of the first and
last encoder positions (computed in int after integral promotion of the
unsigned short fields) is below M8_FIRING_PER_PKT / 10 = 5. -/
def spinFlag (p0 p49 : ℕ) : Bool :=
  decide (¬ ((p0 : ℤ) - (p49 : ℤ)).natAbs < M8_FIRING_PER_PKT / 10)

/-- Direction computation for a spinning packet (m8_client.cpp lines
192-195), in int arithmetic on the two encoder positions. -/
def spinningDirection (p0 p49 : ℕ) : ℤ :=
  if (p0 : ℤ) - (p49 : ℤ) > 0 then
    if (p0 : ℤ) - (p49 : ℤ) > 4000 then 1 else -1
  else
    if (p49 : ℤ) - (p0 : ℤ) > 4000 then 1 else -1

/-- Full direction computation (m8_client.cpp lines 190-198): the spinning
branch above, and the constant 1 for a packet classified as not spinning. -/
def directionOf (p0 p49 : ℕ) : ℤ :=
  if spinFlag p0 p49 then spinningDirection p0 p49 else 1

/-- Synthesized encoder position for a non-spinning packet (m8_client.cpp
line 205): data.position = (scan_counter_ * M8_FIRING_PER_PKT + i) % 1000,
computed in uint32_t arithmetic, hence the reduction modulo 2^32 before the
final % 1000. -/
def synthPosition (sc i : ℕ) : ℕ :=
  ((sc * M8_FIRING_PER_PKT + i) % UINT32_MOD) % 1000

/-- Encoder position actually used for firing i of a packet processed with
packet-local scan counter value sc: the raw wire position when spinning,
the synthesized position otherwise (m8_client.cpp lines 202-205). -/
def firingPosition (pkt : M8DataPacket) (sc i : ℕ) : ℕ :=
  if spinFlag (packetFiring pkt 0).position (packetFiring pkt (M8_FIRING_PER_PKT - 1)).position then
    (packetFiring pkt i).position
  else
    synthPosition sc i

/-- Validity of an index into the cosine/sine lookup tables, which are
constructed with M8_NUM_ROT_ANGLES + 1 = 10401 entries (m8_client.cpp
lines 21-22 and 26-31). -/
def tableIndexInBounds (pos : ℕ) : Prop :=
  pos < M8_NUM_ROT_ANGLES + 1

/-- Azimuth angle in degrees of an encoder position (m8_client.cpp line
208): shift by half the angular range, wrap modulo the full range, scale to
360 degrees and shift to [-180, 180). -/
def azimuthAngle (pos : ℕ) : ℚ :=
  (((pos + M8_NUM_ROT_ANGLES / 2) % M8_NUM_ROT_ANGLES : ℕ) : ℚ) / (M8_NUM_ROT_ANGLES : ℚ) * 360 - 180

/-- Capture time of a packet (m8_client.cpp line 178, CLIENT_TIME not
defined): seconds scaled to nanoseconds plus the nanosecond part (the C++
routes this product through a double; the value is modelled exactly). -/
def packetTime (pkt : M8DataPacket) : ℕ :=
  pkt.seconds * 1000000000 + pkt.nanoseconds

/-- Assembly state of the decode thread: the in-progress sweep cloud, the
last observed azimuth, the scan and sweep counters (uint32), and the trace
of clouds passed to fireCurrentSweep. -/
structure DecoderState where
  current : PointCloud
  lastAzimuth : ℚ
  scanCounter : ℕ
  sweepCounter : ℕ
  delivered : List PointCloud
deriving DecidableEq, Repr

/-- State right after M8Client construction (m8_client.cpp lines 8-41):
fresh empty cloud, last_azimuth_ = 65000, zero counters, nothing delivered. -/
def initState : DecoderState :=
  { current := freshCloud
    lastAzimuth := 65000
    scanCounter := 0
    sweepCounter := 0
    delivered := [] }

/-- Range in meters for laser j of a firing (m8_client.cpp line 247):
first return channel distance times 0.01.  A uint32 distance scaled by a
finite constant is never NaN, hence always some. -/
def rangeOfReturn (f : M8FiringData) (j : ℕ) : Option ℚ :=
  some (((f.returns_distances.getD 0 []).getD j 0 : ℚ) * (1 / 100))

/-- Body of the per-laser loop of M8Client::toPointClouds (m8_client.cpp
lines 244-260) for laser j: compute the range, convert to Cartesian
coordinates with the table values for the firing position, fetch the
intensity, push the point, and clear is_dense if the cloud was dense and
the range is NaN. -/
def appendLaserStep (cosT sinT cosV sinV : ℕ → ℚ) (f : M8FiringData) (pos : ℕ)
    (c : PointCloud) (j : ℕ) : PointCloud :=
  let range := rangeOfReturn f j
  let xyz := computeXYZ range (cosT pos) (sinT pos) (cosV j) (sinV j)
  let xyzi : Point :=
    { x := xyz.1, y := xyz.2.1, z := xyz.2.2
      intensity := (f.returns_intensities.getD 0 []).getD j 0 }
  let c2 := pushPoint c xyzi
  if c2.is_dense && rangeIsNaN range then { c2 with is_dense := false } else c2

/-- The per-laser loop over the 8 lasers (m8_client.cpp lines 244-260). -/
def appendFiring (cosT sinT cosV sinV : ℕ → ℚ) (f : M8FiringData) (pos : ℕ)
    (c : PointCloud) : PointCloud :=
  (List.range M8_NUM_LASERS).foldl (appendLaserStep cosT sinT cosV sinV f pos) c

/-- Sweep boundary handling of M8Client::toPointClouds (m8_client.cpp lines
210-237).  When direction * azimuth < direction * last_azimuth: if the
in-progress cloud is non-empty it is organized, its header is stamped with
the capture time and the current sweep counter, the sweep counter is
incremented and the cloud is delivered (appended to the trace); in both
cases the current cloud is replaced by a fresh empty (dense) one. -/
def handleBoundary (t : ℕ) (dir : ℤ) (az : ℚ) (s : DecoderState) : DecoderState :=
  if (dir : ℚ) * az < (dir : ℚ) * s.lastAzimuth then
    let s1 :=
      if 0 < s.current.points.length then
        let stamped := { organizeCloud s.current with stamp := t, seq := s.sweepCounter }
        { s with
          current := stamped
          sweepCounter := (s.sweepCounter + 1) % UINT32_MOD
          delivered := s.delivered ++ [stamped] }
      else s
    { s1 with current := freshCloud }
  else s

/-- Processing of one firing record (one iteration of the loop at
m8_client.cpp lines 200-263, after the position has been resolved):
compute the azimuth, handle a possible sweep boundary, append the 8 laser
points, and finally update last_azimuth_. -/
def processFiring (cosT sinT cosV sinV : ℕ → ℚ) (t : ℕ) (dir : ℤ) (f : M8FiringData)
    (pos : ℕ) (s : DecoderState) : DecoderState :=
  let az := azimuthAngle pos
  let s1 := handleBoundary t dir az s
  let s2 := { s1 with current := appendFiring cosT sinT cosV sinV f pos s1.current }
  { s2 with lastAzimuth := az }

/-- Embedding of M8Client::toPointClouds (m8_client.cpp lines 167-264):
compute the capture time, increment the scan counter (uint32), classify
spin and direction from the first and last firing positions, then process
the 50 firings in order. -/
def toPointClouds (cosT sinT cosV sinV : ℕ → ℚ) (pkt : M8DataPacket)
    (s : DecoderState) : DecoderState :=
  let t := packetTime pkt
  let sc := (s.scanCounter + 1) % UINT32_MOD
  let dir := directionOf (packetFiring pkt 0).position (packetFiring pkt (M8_FIRING_PER_PKT - 1)).position
  List.foldl
    (fun st i => processFiring cosT sinT cosV sinV t dir (packetFiring pkt i) (firingPosition pkt sc i) st)
    { s with scanCounter := sc } (List.range M8_FIRING_PER_PKT)

/-- Queue-consumer view of M8Client::processM8Packets: the packets are
decoded and assembled strictly in arrival order. -/
def processPackets (cosT sinT cosV sinV : ℕ → ℚ) (pkts : List M8DataPacket) : DecoderState :=
  pkts.foldl (fun s pkt => toPointClouds cosT sinT cosV sinV pkt s) initState

/-- Observable outcome of M8Client::start (m8_client.cpp lines 299-341):
which threads were launched and how many fatal connection errors were
reported.  The two Bool parameters abstract the two fallible connection
attempts (the direct connect, and the wildcard-address fallback tried only
when the first throws). -/
structure StartState where
  consumerThreadLaunched : Bool
  readerThreadLaunched : Bool
  fatalErrorsReported : ℕ
deriving DecidableEq, Repr

/-- Embedding of M8Client::start: the queue-consumer thread is launched
unconditionally before any connection attempt (line 302); if the direct
connect (lines 310-316) succeeds, or it throws and the wildcard fallback
(lines 318-328) succeeds, the reader thread is launched (line 340); if both
throw, the outer catch reports the fatal error once and returns without
launching the reader thread (lines 332-336). -/
def start (connectOk fallbackOk : Bool) : StartState :=
  if connectOk then
    { consumerThreadLaunched := true, readerThreadLaunched := true, fatalErrorsReported := 0 }
  else if fallbackOk then
    { consumerThreadLaunched := true, readerThreadLaunched := true, fatalErrorsReported := 0 }
  else
    { consumerThreadLaunched := true, readerThreadLaunched := false, fatalErrorsReported := 1 }

/-- Embedding of M8Client::isRunning (m8_client.cpp lines 52-56): true
while the queue is non-empty or the reader thread object exists. -/
def isRunning (queueEmpty readerThreadAlive : Bool) : Bool :=
  !queueEmpty || readerThreadAlive

/-- A packet whose first firing carries the maximal 16-bit encoder position
and whose remaining firings are all zero; it is classified as spinning. -/
def pkt65535 : M8DataPacket :=
  { data := { defaultFiring with position := 65535 } :: List.replicate 49 defaultFiring
    seconds := 0
    nanoseconds := 0
    status := 0 }

/-- A packet with 50 identical zero firings; it is classified as not
spinning. -/
def pktStationary : M8DataPacket :=
  { data := List.replicate 50 defaultFiring
    seconds := 0
    nanoseconds := 0
    status := 0 }

/-- Closed form of the queue state after n valid-size pushes from empty:
the first 1001 pushes enqueue (the guard drops only once the depth already
exceeds 1000), every later push is dropped. -/
lemma pushValid_closed_form (n : ℕ) :
    (pushValid n ⟨0, 0⟩).depth = min n 1001 ∧ (pushValid n ⟨0, 0⟩).drops = n - 1001 := by
  induction n with
  | zero => simp [pushValid]
  | succ n ih =>
    obtain ⟨h1, h2⟩ := ih
    unfold pushValid enqueueM8Packet
    rw [if_pos rfl]
    split_ifs with h <;> refine ⟨?_, ?_⟩ <;> dsimp only <;> omega

/-- C5 counterexample: after 1001 valid pushes from an empty queue the
depth is 1001, exceeding the claimed cap of 1000, and after 1002 pushes
only 1 packet has been dropped, not the claimed 1002 - 1000 = 2. -/
theorem c5_capacity_counterexample :
    (pushValid 1001 ⟨0, 0⟩).depth = 1001 ∧
    ¬ (pushValid 1001 ⟨0, 0⟩).depth ≤ 1000 ∧
    (pushValid 1002 ⟨0, 0⟩).drops = 1 ∧
    (pushValid 1002 ⟨0, 0⟩).drops ≠ 1002 - 1000 := by
  obtain ⟨a1, a2⟩ := pushValid_closed_form 1001
  obtain ⟨b1, b2⟩ := pushValid_closed_form 1002
  refine ⟨?_, ?_, ?_, ?_⟩ <;> omega

/-- C5 (amended): starting from an empty queue, pushing n valid-size
buffers with no intervening pops yields exactly n - 1001 drops (zero while
n is at most 1001) and a depth of min n 1001, so the depth never exceeds
1001 entries. -/
theorem c5_bounded_queue_amended (n : ℕ) :
    (pushValid n ⟨0, 0⟩).depth = min n 1001 ∧
    (pushValid n ⟨0, 0⟩).depth ≤ 1001 ∧
    (pushValid n ⟨0, 0⟩).drops = n - 1001 := by
  obtain ⟨h1, h2⟩ := pushValid_closed_form n
  refine ⟨h1, ?_, h2⟩
  omega

/-- C6 counterexample: pushing a wrong-size (100-byte) buffer into an empty
queue leaves the drop counter at 0; the claimed increment to 1 does not
happen. -/
theorem c6_wrong_size_counterexample :
    (enqueueM8Packet 100 ⟨0, 0⟩).drops = 0 ∧
    (enqueueM8Packet 100 ⟨0, 0⟩).drops ≠ 0 + 1 := by
  decide

/-- C6 (amended): a push whose buffer size differs from the expected
6612-byte packet size fails silently and leaves the queue state entirely
unchanged: neither the depth nor the drop counter moves. -/
theorem c6_wrong_size_amended (q : QueueState) (bytes : ℕ) (h : bytes ≠ M8_PACKET_BYTES) :
    enqueueM8Packet bytes q = q := by
  unfold enqueueM8Packet
  rw [if_neg h]

/-- Witness for c6_wrong_size_amended at buffer size 100 and the empty
queue. -/
theorem c6_wrong_size_witness :
    (100 ≠ M8_PACKET_BYTES) ∧ enqueueM8Packet 100 ⟨0, 0⟩ = ⟨0, 0⟩ :=
  ⟨by decide, c6_wrong_size_amended ⟨0, 0⟩ 100 (by decide)⟩

/-- C3: computeXYZ maps a NaN range to an all-NaN point, and otherwise
returns exactly xyDistance = range * cosV - sinV, x = xyDistance * cosH,
y = xyDistance * sinH, z = range * sinV + cosV, keeping the literal
- sinV and + cosV offset terms of the source. -/
theorem c3_computeXYZ_formula (r cosH sinH cosV sinV : ℚ) :
    computeXYZ none cosH sinH cosV sinV = (none, none, none) ∧
    computeXYZ (some r) cosH sinH cosV sinV =
      (some ((r * cosV - sinV) * cosH), some ((r * cosV - sinV) * sinH),
        some (r * sinV + cosV)) :=
  ⟨rfl, rfl⟩

/-- C4: for a packet classified as spinning, the direction computed from
the first and last encoder positions is +1 exactly when the raw absolute
delta exceeds 4000 (the wraparound correction flips the otherwise-backward
sign), and in particular the pair (10399, 2) with raw delta 10397 is
classified as forward spin +1. -/
theorem c4_spin_direction (p0 p49 : ℕ) (h : spinFlag p0 p49 = true) :
    directionOf p0 p49 = (if 4000 < ((p0 : ℤ) - (p49 : ℤ)).natAbs then 1 else -1) ∧
    spinFlag 10399 2 = true ∧
    directionOf 10399 2 = 1 := by
  refine ⟨?_, by decide, by decide⟩
  unfold directionOf spinningDirection
  rw [if_pos h]
  split_ifs <;> omega

/-- Witness for c4_spin_direction at the claim's own example, positions
10399 and 2. -/
theorem c4_spin_direction_witness :
    spinFlag 10399 2 = true ∧
    (directionOf 10399 2 = (if 4000 < ((10399 : ℤ) - (2 : ℤ)).natAbs then 1 else -1) ∧
      spinFlag 10399 2 = true ∧
      directionOf 10399 2 = 1) :=
  ⟨by decide, c4_spin_direction 10399 2 (by decide)⟩

/-- C7: the packet pkt65535 is classified as spinning, so firing 0 is
looked up at the raw wire position 65535, which is not a valid index into
the 10401-entry cosine/sine tables: the lookup is out of bounds. -/
theorem c7_out_of_bounds_lookup :
    spinFlag (packetFiring pkt65535 0).position
        (packetFiring pkt65535 (M8_FIRING_PER_PKT - 1)).position = true ∧
    firingPosition pkt65535 1 0 = 65535 ∧
    ¬ tableIndexInBounds (firingPosition pkt65535 1 0) := by
  have h2 : firingPosition pkt65535 1 0 = 65535 := by decide
  refine ⟨by decide, h2, ?_⟩
  rw [h2]
  unfold tableIndexInBounds
  decide

/-- C10 counterexample: the synthesized stationary-mode position is
computed in uint32_t arithmetic, so at scan counter 85899346 (reachable,
since the counter increments once per packet) firing 0 gets position
(85899346 * 50) mod 2^32 mod 1000 = 4, while the claimed formula
(scan_counter * 50 + firing_index) mod 1000 gives 300. -/
theorem c10_uint32_wrap_counterexample :
    synthPosition 85899346 0 = 4 ∧
    synthPosition 85899346 0 ≠ (85899346 * 50 + 0) % 1000 := by
  decide

/-- C10 (amended): for a packet classified as not spinning, the encoder
position used for firing i is overwritten with the synthesized value
((scan_counter * 50 + i) mod 2^32) mod 1000 (uint32_t arithmetic), so every
synthesized position lies in [0, 1000) and the table lookup is in bounds. -/
theorem c10_synth_position_amended (pkt : M8DataPacket) (sc i : ℕ)
    (h : spinFlag (packetFiring pkt 0).position
        (packetFiring pkt (M8_FIRING_PER_PKT - 1)).position = false) :
    firingPosition pkt sc i = synthPosition sc i ∧
    synthPosition sc i = ((sc * 50 + i) % 4294967296) % 1000 ∧
    synthPosition sc i < 1000 ∧
    tableIndexInBounds (firingPosition pkt sc i) := by
  have hpos : firingPosition pkt sc i = synthPosition sc i := by
    unfold firingPosition
    simp [h]
  have hlt : synthPosition sc i < 1000 := by
    unfold synthPosition
    exact Nat.mod_lt _ (by norm_num)
  refine ⟨hpos, rfl, hlt, ?_⟩
  rw [hpos]
  unfold tableIndexInBounds M8_NUM_ROT_ANGLES
  omega

/-- Witness for c10_synth_position_amended at the all-zero stationary
packet, scan counter 3, firing 7. -/
theorem c10_synth_position_witness :
    spinFlag (packetFiring pktStationary 0).position
        (packetFiring pktStationary (M8_FIRING_PER_PKT - 1)).position = false ∧
    (firingPosition pktStationary 3 7 = synthPosition 3 7 ∧
      synthPosition 3 7 = ((3 * 50 + 7) % 4294967296) % 1000 ∧
      synthPosition 3 7 < 1000 ∧
      tableIndexInBounds (firingPosition pktStationary 3 7)) :=
  ⟨by decide, c10_synth_position_amended pktStationary 3 7 (by decide)⟩

/-- C8 counterexample: when both connection attempts fail, the
queue-consumer thread has nonetheless been launched (start launches it
before attempting to connect), contradicting the claim that no thread is
launched. -/
theorem c8_consumer_thread_counterexample :
    (start false false).consumerThreadLaunched ≠ false := by
  decide

/-- Mapping getD over the index range of a list reassembles the list. -/
lemma getD_range_map {α : Type} [Inhabited α] (xs : List α) :
    (List.range xs.length).map (fun k => xs.getD k default) = xs := by
  induction xs with
  | nil => simp
  | cons a tl ih =>
    simp only [List.length_cons, List.range_succ_eq_map, List.map_cons, List.map_map,
      List.getD_cons_zero]
    have hcomp : ((fun k => (a :: tl).getD k default) ∘ Nat.succ) =
        (fun k => tl.getD k default) := by
      funext k
      simp [List.getD_cons_succ]
    rw [hcomp, ih]

/-- Splitting one trailing element off every block of a flatMap is a
permutation: the trailing elements can be collected at the end. -/
lemma flatMap_append_singleton_perm {γ β : Type} (l : List γ) (A : γ → List β) (b : γ → β) :
    List.Perm (l.flatMap fun i => A i ++ [b i]) (l.flatMap A ++ l.map b) := by
  induction l with
  | nil => simp
  | cons x l ih =>
    simp only [List.flatMap_cons, List.map_cons]
    rw [List.append_assoc, List.append_assoc]
    apply List.Perm.append_left
    rw [List.singleton_append]
    refine List.Perm.trans ?_ List.perm_middle.symm
    exact List.Perm.cons _ ih

/-- Index sequence generated by organizeList for an input of 8 * w
elements: laser i from 7 down to 0, firing j from 0 to w - 1, index
j * 8 + i. -/
def idx (w : ℕ) : List ℕ :=
  (List.range 8).reverse.flatMap fun i => (List.range w).map fun j => j * 8 + i

/-- The organizeList index sequence is a permutation of 0 .. 8 * w - 1. -/
lemma idx_perm_range (w : ℕ) : List.Perm (idx w) (List.range (8 * w)) := by
  induction w with
  | zero => decide
  | succ w ih =>
    unfold idx
    have hsplit : ∀ i : ℕ, (List.range (w + 1)).map (fun j => j * 8 + i) =
        (List.range w).map (fun j => j * 8 + i) ++ [w * 8 + i] := by
      intro i
      rw [List.range_succ, List.map_append]
      rfl
    simp only [hsplit]
    refine (flatMap_append_singleton_perm _ _ _).trans ?_
    have h8 : 8 * (w + 1) = 8 * w + 8 := by ring
    rw [h8, List.range_add]
    refine List.Perm.append ih ?_
    refine List.Perm.trans (((List.range 8).reverse_perm).map _) ?_
    rw [Nat.mul_comm w 8]

/-- organizeList is the getD image of its index sequence. -/
lemma organizeList_eq_map_idx {α : Type} [Inhabited α] (xs : List α) :
    organizeList xs = (idx (xs.length / 8)).map fun k => xs.getD k default := by
  unfold organizeList idx
  rw [List.map_flatMap]
  simp only [List.map_map, Function.comp_apply]
  rfl

/-- getD into a flatMap of equal-length blocks, at a block-decomposed
index. -/
lemma getD_flatMap_blocks {β : Type} (A : ℕ → List β) (w : ℕ) :
    ∀ (l : List ℕ), (∀ x ∈ l, (A x).length = w) →
      ∀ k j d, k < l.length → j < w →
        (l.flatMap A).getD (k * w + j) d = (A (l.getD k 0)).getD j d := by
  intro l
  induction l with
  | nil =>
    intro _ k j d hk _
    exact absurd hk (Nat.not_lt_zero k)
  | cons x l ih =>
    intro hA k j d hk hj
    rw [List.flatMap_cons]
    cases k with
    | zero =>
      rw [Nat.zero_mul, Nat.zero_add]
      rw [List.getD_append _ _ _ _ (by rw [hA x (List.mem_cons_self x l)]; exact hj)]
      rfl
    | succ k =>
      have hxlen : (A x).length = w := hA x (List.mem_cons_self x l)
      have hidx : (k + 1) * w + j = (A x).length + (k * w + j) := by
        rw [hxlen]
        ring
      rw [hidx, List.getD_append_right _ _ _ _ (Nat.le_add_right _ _), Nat.add_sub_cancel_left]
      rw [List.getD_cons_succ]
      exact ih (fun y hy => hA y (List.mem_cons_of_mem _ hy)) k j d (by simpa using hk) hj

/-- C2: for an input whose length is divisible by 8, organizeList keeps the
length, is a permutation of the input, places the element for laser i and
firing j (read from input index j * 8 + i) at output position
(7 - i) * width + j, and organizeCloud sets the logical dimensions to
8 rows by length / 8 columns. -/
theorem c2_organize_permutation {α : Type} [Inhabited α] (xs : List α) (h : 8 ∣ xs.length) :
    (organizeList xs).length = xs.length ∧
    List.Perm (organizeList xs) xs ∧
    (∀ i, i < 8 → ∀ j, j < xs.length / 8 →
      (organizeList xs).getD ((7 - i) * (xs.length / 8) + j) default =
        xs.getD (j * 8 + i) default) ∧
    (∀ c : PointCloud, (organizeCloud c).points = organizeList c.points ∧
      (organizeCloud c).height = 8 ∧ (organizeCloud c).width = c.points.length / 8) := by
  have hperm : List.Perm (organizeList xs) xs := by
    rw [organizeList_eq_map_idx]
    have h1 : List.Perm ((idx (xs.length / 8)).map fun k => xs.getD k default)
        ((List.range (8 * (xs.length / 8))).map fun k => xs.getD k default) :=
      (idx_perm_range _).map _
    rw [Nat.mul_div_cancel' h, getD_range_map] at h1
    exact h1
  refine ⟨hperm.length_eq, hperm, ?_, fun c => ⟨rfl, rfl, rfl⟩⟩
  intro i hi j hj
  unfold organizeList
  rw [getD_flatMap_blocks _ (xs.length / 8) _ (fun x _ => by simp) (7 - i) j default
    (by simp only [List.length_reverse, List.length_range]; omega) hj]
  have hrev : (List.range 8).reverse.getD (7 - i) 0 = i := by
    interval_cases i <;> rfl
  rw [hrev]
  rw [List.getD_eq_getElem?_getD, List.getElem?_map, List.getElem?_range hj]
  rfl

/-- Witness for c2_organize_permutation on the concrete 16-element input
0 .. 15 (two firings of 8 lasers). -/
theorem c2_organize_permutation_witness :
    (8 ∣ (List.range 16).length) ∧
    ((organizeList (List.range 16)).length = (List.range 16).length ∧
      List.Perm (organizeList (List.range 16)) (List.range 16) ∧
      (∀ i, i < 8 → ∀ j, j < (List.range 16).length / 8 →
        (organizeList (List.range 16)).getD ((7 - i) * ((List.range 16).length / 8) + j) default =
          (List.range 16).getD (j * 8 + i) default) ∧
      (∀ c : PointCloud, (organizeCloud c).points = organizeList c.points ∧
        (organizeCloud c).height = 8 ∧ (organizeCloud c).width = c.points.length / 8)) :=
  ⟨by decide, c2_organize_permutation (List.range 16) (by decide)⟩

/-- C8 (amended): if both connection attempts in start() fail, the fatal
connection error is reported exactly once, the packet-reading thread is not
launched, and isRunning() reports false while the queue is empty; the
queue-consumer thread, however, was already launched before the connection
attempt. -/
theorem c8_connect_failure_amended :
    (start false false).fatalErrorsReported = 1 ∧
    (start false false).readerThreadLaunched = false ∧
    (start false false).consumerThreadLaunched = true ∧
    isRunning true (start false false).readerThreadLaunched = false := by
  decide

/-- C1: processing one firing updates last_azimuth to the azimuth of the
firing position; a boundary is detected exactly when
direction * azimuth < direction * last_azimuth, and then a non-empty
in-progress sweep is organized, stamped with the capture time and the
current sweep counter, the counter is incremented and the sweep is
delivered, while an empty sweep produces no delivery and no counter change;
at any boundary the in-progress sweep is replaced by a fresh empty cloud
marked dense; and toPointClouds is exactly the in-order fold of this firing
step over the 50 firings of the packet. -/
theorem c1_sweep_boundary (cosT sinT cosV sinV : ℕ → ℚ) (t : ℕ) (dir : ℤ)
    (f : M8FiringData) (pos : ℕ) (st : DecoderState) :
    (processFiring cosT sinT cosV sinV t dir f pos st).lastAzimuth = azimuthAngle pos ∧
    (processFiring cosT sinT cosV sinV t dir f pos st).delivered =
      st.delivered ++
        (if (dir : ℚ) * azimuthAngle pos < (dir : ℚ) * st.lastAzimuth ∧
            0 < st.current.points.length then
          [{ organizeCloud st.current with stamp := t, seq := st.sweepCounter }]
        else []) ∧
    (processFiring cosT sinT cosV sinV t dir f pos st).sweepCounter =
      (if (dir : ℚ) * azimuthAngle pos < (dir : ℚ) * st.lastAzimuth ∧
          0 < st.current.points.length then
        (st.sweepCounter + 1) % UINT32_MOD
      else st.sweepCounter) ∧
    (handleBoundary t dir (azimuthAngle pos) st).current =
      (if (dir : ℚ) * azimuthAngle pos < (dir : ℚ) * st.lastAzimuth then freshCloud
       else st.current) ∧
    freshCloud.points = [] ∧
    freshCloud.is_dense = true ∧
    (∀ (pkt : M8DataPacket) (s0 : DecoderState),
      toPointClouds cosT sinT cosV sinV pkt s0 =
        List.foldl
          (fun s2 i =>
            processFiring cosT sinT cosV sinV (packetTime pkt)
              (directionOf (packetFiring pkt 0).position
                (packetFiring pkt (M8_FIRING_PER_PKT - 1)).position)
              (packetFiring pkt i)
              (firingPosition pkt ((s0.scanCounter + 1) % UINT32_MOD) i) s2)
          { s0 with scanCounter := (s0.scanCounter + 1) % UINT32_MOD }
          (List.range M8_FIRING_PER_PKT)) := by
  by_cases hB : (dir : ℚ) * azimuthAngle pos < (dir : ℚ) * st.lastAzimuth <;>
    by_cases hE : 0 < st.current.points.length <;>
    refine ⟨rfl, ?_, ?_, ?_, rfl, rfl, fun pkt s0 => rfl⟩ <;>
    simp [processFiring, handleBoundary, hB, hE]

/-- Invariant for C9: the in-progress cloud is dense and every delivered
cloud is dense. -/
def denseInv (s : DecoderState) : Prop :=
  s.current.is_dense = true ∧ ∀ sw ∈ s.delivered, sw.is_dense = true

/-- One laser append never clears is_dense, because the range fed to the
NaN test is a scaled integer distance and never NaN. -/
lemma appendLaserStep_is_dense (cosT sinT cosV sinV : ℕ → ℚ) (f : M8FiringData) (pos : ℕ)
    (c : PointCloud) (j : ℕ) :
    (appendLaserStep cosT sinT cosV sinV f pos c j).is_dense = c.is_dense := by
  unfold appendLaserStep rangeOfReturn rangeIsNaN pushPoint
  simp

/-- The 8-laser loop never clears is_dense. -/
lemma appendFiring_is_dense (cosT sinT cosV sinV : ℕ → ℚ) (f : M8FiringData) (pos : ℕ)
    (c : PointCloud) :
    (appendFiring cosT sinT cosV sinV f pos c).is_dense = c.is_dense := by
  unfold appendFiring
  generalize List.range M8_NUM_LASERS = l
  induction l generalizing c with
  | nil => rfl
  | cons j l ih => rw [List.foldl_cons, ih, appendLaserStep_is_dense]

/-- Boundary handling preserves the dense invariant: a delivered cloud
carries is_dense of the freshly rebuilt organized cloud (true), and the
replacement in-progress cloud is fresh and dense. -/
lemma handleBoundary_denseInv (t : ℕ) (dir : ℤ) (az : ℚ) (s : DecoderState)
    (h : denseInv s) : denseInv (handleBoundary t dir az s) := by
  obtain ⟨hc, hd⟩ := h
  unfold handleBoundary
  split_ifs with h1 h2
  · refine ⟨rfl, ?_⟩
    intro sw hsw
    simp only [List.mem_append, List.mem_singleton] at hsw
    rcases hsw with hmem | heq
    · exact hd sw hmem
    · rw [heq]
      rfl
  · exact ⟨rfl, hd⟩
  · exact ⟨hc, hd⟩

/-- One firing step preserves the dense invariant. -/
lemma processFiring_denseInv (cosT sinT cosV sinV : ℕ → ℚ) (t : ℕ) (dir : ℤ)
    (f : M8FiringData) (pos : ℕ) (s : DecoderState) (h : denseInv s) :
    denseInv (processFiring cosT sinT cosV sinV t dir f pos s) := by
  obtain ⟨h1, h2⟩ := handleBoundary_denseInv t dir (azimuthAngle pos) s h
  constructor
  · show (appendFiring cosT sinT cosV sinV f pos
      (handleBoundary t dir (azimuthAngle pos) s).current).is_dense = true
    rw [appendFiring_is_dense]
    exact h1
  · exact h2

/-- A fold of firing steps preserves the dense invariant. -/
lemma foldl_processFiring_denseInv (cosT sinT cosV sinV : ℕ → ℚ) (t : ℕ) (dir : ℤ)
    (F : ℕ → M8FiringData) (P : ℕ → ℕ) (l : List ℕ) :
    ∀ s : DecoderState, denseInv s →
      denseInv (l.foldl (fun st i => processFiring cosT sinT cosV sinV t dir (F i) (P i) st) s) := by
  induction l with
  | nil => exact fun s h => h
  | cons i l ih =>
    intro s h
    rw [List.foldl_cons]
    exact ih _ (processFiring_denseInv cosT sinT cosV sinV t dir (F i) (P i) s h)

/-- Packet assembly preserves the dense invariant. -/
lemma toPointClouds_denseInv (cosT sinT cosV sinV : ℕ → ℚ) (pkt : M8DataPacket)
    (s : DecoderState) (h : denseInv s) :
    denseInv (toPointClouds cosT sinT cosV sinV pkt s) := by
  unfold toPointClouds
  exact foldl_processFiring_denseInv cosT sinT cosV sinV (packetTime pkt)
    (directionOf (packetFiring pkt 0).position (packetFiring pkt (M8_FIRING_PER_PKT - 1)).position)
    (packetFiring pkt) (firingPosition pkt ((s.scanCounter + 1) % UINT32_MOD))
    (List.range M8_FIRING_PER_PKT) _ h

/-- The whole pipeline, started from the constructed state, satisfies the
dense invariant after any packet sequence. -/
lemma processPackets_denseInv (cosT sinT cosV sinV : ℕ → ℚ) (pkts : List M8DataPacket) :
    denseInv (processPackets cosT sinT cosV sinV pkts) := by
  unfold processPackets
  have hgen : ∀ s : DecoderState, denseInv s →
      denseInv (pkts.foldl (fun s2 pkt => toPointClouds cosT sinT cosV sinV pkt s2) s) := by
    induction pkts with
    | nil => exact fun s h => h
    | cons pkt pkts ih =>
      intro s h
      rw [List.foldl_cons]
      exact ih _ (toPointClouds_denseInv cosT sinT cosV sinV pkt s h)
  refine hgen initState ⟨rfl, ?_⟩
  intro sw hsw
  simp [initState] at hsw

/-- C9: the range handed to computeXYZ for every sample is the scaled
integer distance, never NaN, so after processing any packet sequence every
delivered sweep is dense and the in-progress sweep is still dense. -/
theorem c9_dense_delivery (cosT sinT cosV sinV : ℕ → ℚ) (pkts : List M8DataPacket) :
    (∀ sw ∈ (processPackets cosT sinT cosV sinV pkts).delivered, sw.is_dense = true) ∧
    (processPackets cosT sinT cosV sinV pkts).current.is_dense = true ∧
    (∀ (f : M8FiringData) (j : ℕ),
      rangeOfReturn f j ≠ none ∧ rangeIsNaN (rangeOfReturn f j) = false) := by
  obtain ⟨h1, h2⟩ := processPackets_denseInv cosT sinT cosV sinV pkts
  exact ⟨h2, h1, fun f j => ⟨by simp [rangeOfReturn], rfl⟩⟩

end M8
